import Mathlib

/-!
# Express backend (`server.js`): OTP exchange, credential routes, review validation

A shallow embedding of the request handlers of `server.js`.  Each handler is a
function from the state it reads (the in-memory `otpStore`, the `users` table,
the `reviews` table), the request body and the answers of its collaborators
(the random draw, the mail transport, the database, bcrypt) to what the client
gets back and the state afterwards.  A request is handled atomically.

The email, id and password fields of a body are taken as strings or absent,
the values the routes are written for.  The otp of `/verify-otp` and the
fields of `/api/reviews` are arbitrary JSON values.
-/

namespace Backend

/-! ## Values, responses -/

/-- A JavaScript value as it reaches a handler from a parsed JSON body, with
`undefined` for a field the body does not have.  Numbers are the
integer-valued ones.  The same type is used for the JSON a handler sends. -/
inductive JsVal where
  | undefined
  | null
  | bool (b : Bool)
  | num (n : Int)
  | str (s : String)
  | arr (items : List JsVal)
  | obj (fields : List (String × JsVal))

/-- ToBoolean, as applied by `!x`, `a || b` and `a && b`. -/
def JsVal.truthy : JsVal → Bool
  | .undefined => false
  | .null => false
  | .bool b => b
  | .num n => n != 0
  | .str s => s != ""
  | .arr _ => true
  | .obj _ => true

/-- An HTTP response: status code and JSON body. -/
structure Response where
  status : Nat
  body : JsVal

/-- What a handler does with a request. -/
inductive Outcome where
  /-- The handler wrote a response. -/
  | responded (r : Response)
  /-- The handler threw while running; Express answers 500 on its own. -/
  | threw
  /-- A promise rejected inside a callback where nothing catches it: the
  handler writes no response. -/
  | unanswered
  /-- The handler handed the request on to the following layer. -/
  | next

/-- The status code the client sees, when the handler wrote a response. -/
def Outcome.status : Outcome → Option Nat
  | .responded r => some r.status
  | _ => none

/-- The body `{ message: m }`. -/
def msg (m : String) : JsVal := .obj [("message", .str m)]

/-- The body `{ success: ok, message: m }`. -/
def flagMsg (ok : Bool) (m : String) : JsVal :=
  .obj [("success", .bool ok), ("message", .str m)]

/-! ## Numbers: `Math.floor(100000 + Math.random() * 900000).toString()` -/

/-- Round a rational to the nearest integer, ties to the even one. -/
def roundHalfEven (t : ℚ) : ℤ :=
  if t - ⌊t⌋ < 1 / 2 then ⌊t⌋
  else if 1 / 2 < t - ⌊t⌋ then ⌊t⌋ + 1
  else if ⌊t⌋ % 2 = 0 then ⌊t⌋ else ⌊t⌋ + 1

/-- Spacing of the binary64 numbers around `x`: 53 significant bits, and the
subnormal spacing `2^-1074` at the bottom of the range. -/
def ulp (x : ℚ) : ℚ := (2 : ℚ) ^ (max (Int.log 2 |x| - 52) (-1074))

/-- The binary64 result of an arithmetic operation whose exact value is `x`
(round to nearest, ties to even), for `x` below the overflow threshold. -/
def fl (x : ℚ) : ℚ := roundHalfEven (x / ulp x) * ulp x

/-- The rational `x` is a binary64 number. -/
def isDouble (x : ℚ) : Prop := fl x = x

instance (x : ℚ) : Decidable (isDouble x) := by
  unfold isDouble; infer_instance

/-- The number `Math.floor(100000 + r * 900000)`, for the draw `r` returned by
`Math.random()`: the product is rounded, then the sum. -/
def otpNumber (r : ℚ) : ℤ := ⌊fl (100000 + fl (r * 900000))⌋

/-- The function `generateOtp`, with the draw of `Math.random()` as argument.
`toString` of an integer-valued number below `10^21` is its decimal numeral. -/
def generateOtp (r : ℚ) : String := toString (otpNumber r)

/-! ## The OTP store: `const otpStore = {}` -/

/-- The own properties of `otpStore`: property key to stored code. -/
abbrev OtpStore := String → Option String

/-- The store at start-up, `{}`. -/
def OtpStore.empty : OtpStore := fun _ => none

/-- Property names every plain object inherits from `Object.prototype`. -/
def objectPrototypeKeys : List String :=
  ["constructor", "__defineGetter__", "__defineSetter__", "hasOwnProperty",
   "__lookupGetter__", "__lookupSetter__", "isPrototypeOf", "propertyIsEnumerable",
   "toString", "valueOf", "__proto__", "toLocaleString"]

/-- The result of reading a property of `otpStore`. -/
inductive PropVal where
  | undefined
  | str (s : String)
  /-- A function or object found on `Object.prototype` (for `__proto__`, the
  prototype itself). -/
  | inherited

/-- The read `otpStore[k]`: an own property first, then the prototype chain. -/
def OtpStore.get (store : OtpStore) (k : String) : PropVal :=
  match store k with
  | some s => .str s
  | none => if k ∈ objectPrototypeKeys then .inherited else .undefined

/-- The assignment `otpStore[k] = v` with `v` a string.  Without an own property
`k`, the key `__proto__` reaches the setter on `Object.prototype`, which ignores
a value that is neither an object nor `null`; every other key gets an own
property (the inherited ones are writable data properties). -/
def OtpStore.set (store : OtpStore) (k : String) (v : String) : OtpStore :=
  if (store k).isNone && k == "__proto__" then store
  else Function.update store k (some v)

/-- The statement `delete otpStore[k]`: removes an own property, if any. -/
def OtpStore.delete (store : OtpStore) (k : String) : OtpStore :=
  Function.update store k none

/-- ToBoolean of a property read. -/
def PropVal.truthy : PropVal → Bool
  | .undefined => false
  | .str s => s != ""
  | .inherited => true

/-- Strict equality `otp === validOtp` of a body value with a property read:
only two equal strings are strictly equal here (a body value is never
`undefined` once it passed `!otp`, and never one of the built-in objects). -/
def strictEq : JsVal → PropVal → Bool
  | .str a, .str b => a == b
  | .undefined, .undefined => true
  | _, _ => false

/-- Handler of `POST /send-otp`.  `r` is the draw of `Math.random()`,
`mailError` the message of the error `sendMail` rejects with, if it does. -/
def sendOtp (r : ℚ) (mailError : Option String) (store : OtpStore)
    (toEmail : Option String) : Outcome × OtpStore :=
  match toEmail with
  | none => (.responded ⟨400, flagMsg false "Email required"⟩, store)
  | some e =>
    if e = "" then (.responded ⟨400, flagMsg false "Email required"⟩, store)
    else
      let otp := generateOtp r
      let store1 := store.set e otp
      match mailError with
      | none => (.responded ⟨200, flagMsg true "OTP sent to email"⟩, store1)
      | some err =>
        (.responded ⟨500, .obj [("success", .bool false),
          ("message", .str "Failed to send OTP"), ("error", .str err)]⟩, store1)

/-- Handler of `POST /verify-otp`. -/
def verifyOtp (store : OtpStore) (email : Option String) (otp : JsVal) :
    Outcome × OtpStore :=
  match email with
  | none => (.responded ⟨400, flagMsg false "Email and OTP required"⟩, store)
  | some e =>
    if e = "" || !otp.truthy then
      (.responded ⟨400, flagMsg false "Email and OTP required"⟩, store)
    else
      let validOtp := store.get e
      if validOtp.truthy && strictEq otp validOtp then
        (.responded ⟨200, flagMsg true "OTP verified"⟩, store.delete e)
      else
        (.responded ⟨400, flagMsg false "Invalid OTP"⟩, store)

/-- The success response of `/verify-otp`. -/
def otpVerified : Outcome := .responded ⟨200, flagMsg true "OTP verified"⟩

/-- The failure response of `/verify-otp` for a code that does not verify. -/
def invalidOtp : Outcome := .responded ⟨400, flagMsg false "Invalid OTP"⟩

/-! ## bcrypt and the `users` table -/

/-- A row of the `users` table.  A column bound to `undefined` holds NULL. -/
structure User where
  id : Nat
  first_name : Option String
  last_name : Option String
  email : Option String
  phone : Option String
  address : Option String
  password : String

/-- The comparison `email = ?` of a column with a bound string parameter; a
parameter bound to `undefined` is NULL, and nothing equals NULL.  Two texts are
equal when they are the same string (the column's collation belongs to the
schema, which the file does not contain). -/
def sqlEq (param col : Option String) : Bool :=
  match param, col with
  | some a, some b => a == b
  | _, _ => false

/-- The rows returned by `SELECT * FROM users WHERE email = ?`. -/
def selectByEmail (users : List User) (email : Option String) : List User :=
  users.filter (fun u => sqlEq email u.email)

/-- Body of `POST /api/signup`: each field absent or a string. -/
structure SignupBody where
  firstName : Option String
  lastName : Option String
  email : Option String
  phone : Option String
  address : Option String
  password : Option String

/-- Handler of `POST /api/signup` (the file registers it twice, with the same
body; the first registration answers).  `hash p` is what `bcrypt.hash(p, 10)`
resolves to for this request, `newId` the id the store gives the inserted row,
`selErr` and `insErr` whether the SELECT and the INSERT fail.  Without a
password `bcrypt.hash` rejects, inside the query callback, where the `try`
around the query does not reach. -/
def signup (hash : String → String) (newId : Nat) (selErr insErr : Bool)
    (users : List User) (b : SignupBody) : Outcome × List User :=
  if selErr then (.responded ⟨500, msg "Database error"⟩, users)
  else if (selectByEmail users b.email).length > 0 then
    (.responded ⟨400, msg "Email already registered"⟩, users)
  else
    match b.password with
    | none => (.unanswered, users)
    | some p =>
      if insErr then (.responded ⟨500, msg "Error saving user"⟩, users)
      else
        (.responded ⟨200, msg "User registered successfully"⟩,
          users ++ [⟨newId, b.firstName, b.lastName, b.email, b.phone, b.address, hash p⟩])

/-- One signup request together with the collaborators' answers for it. -/
structure SignupCall where
  hash : String → String
  newId : Nat
  selErr : Bool
  insErr : Bool
  body : SignupBody

/-- The `users` table after one signup request. -/
def signupStep (users : List User) (c : SignupCall) : List User :=
  (signup c.hash c.newId c.selErr c.insErr users c.body).2

/-- The `users` table after a sequence of signup requests, handled in order. -/
def signupAll (users : List User) (calls : List SignupCall) : List User :=
  calls.foldl signupStep users

/-- At most one row of the table has the email `e`, for every `e`. -/
def UniqueEmails (users : List User) : Prop :=
  ∀ e : String, (users.filter (fun u => decide (u.email = some e))).length ≤ 1

/-- Body of `POST /api/login`: each field absent or a string. -/
structure LoginBody where
  email : Option String
  password : Option String

/-- How a template literal prints a column value. -/
def templ : Option String → String
  | none => "null"
  | some s => s

/-- The identity projection sent by the first login handler. -/
def loginUser (u : User) : JsVal :=
  .obj [("id", .num u.id), ("name", .str (templ u.first_name ++ " " ++ templ u.last_name)),
        ("email", match u.email with | none => .null | some e => .str e)]

/-- The first handler of `POST /api/login`.  `compare p h` is what
`bcrypt.compare(p, h)` resolves to (without a password it rejects, inside the
query callback), `selErr` whether the SELECT fails.  The row read is
`results[0]`. -/
def login (compare : String → String → Bool) (selErr : Bool) (users : List User)
    (b : LoginBody) : Outcome :=
  if selErr then .responded ⟨500, msg "Server error"⟩
  else
    match selectByEmail users b.email with
    | [] => .responded ⟨401, msg "Invalid email or password"⟩
    | user :: _ =>
      match b.password with
      | none => .unanswered
      | some p =>
        if !compare p user.password then
          .responded ⟨401, msg "Invalid email or password"⟩
        else
          .responded ⟨200, .obj [("message", .str "Login successful"),
            ("user", loginUser user)]⟩

/-- The second handler of `POST /api/login` (registered after
`/api/change-password`). -/
def loginAlt (compare : String → String → Bool) (selErr : Bool) (users : List User)
    (b : LoginBody) : Outcome :=
  if selErr then .responded ⟨500, msg "Database error"⟩
  else
    match selectByEmail users b.email with
    | [] => .responded ⟨404, msg "User not found"⟩
    | user :: _ =>
      match b.password with
      | none => .unanswered
      | some p =>
        if !compare p user.password then
          .responded ⟨401, msg "Invalid password"⟩
        else
          .responded ⟨200, .obj [("success", .bool true),
            ("message", .str "Login successful"), ("userId", .num user.id)]⟩

/-- Body of `POST /api/change-password`: each field absent or a string. -/
structure ChangePasswordBody where
  id : Option String
  password : Option String

/-- The table after `UPDATE users SET password = ? WHERE email = ?`. -/
def updatePassword (users : List User) (hashed : String) (email : Option String) :
    List User :=
  users.map (fun u =>
    if sqlEq email u.email then
      ⟨u.id, u.first_name, u.last_name, u.email, u.phone, u.address, hashed⟩
    else u)

/-- Handler of `POST /api/change-password`.  The guard `!id || !password`
rejects an absent or empty field, so `bcrypt.hash` gets a string.  `dbErr`:
whether the UPDATE fails (the table is then left as it was).  `affectedRows` is
the number of rows the WHERE clause matched. -/
def changePassword (hash : String → String) (dbErr : Bool) (users : List User)
    (b : ChangePasswordBody) : Outcome × List User :=
  match b.id, b.password with
  | some i, some p =>
    if i = "" ∨ p = "" then
      (.responded ⟨400, flagMsg false "Missing id or password"⟩, users)
    else
      let hashedPassword := hash p
      if dbErr then (.responded ⟨500, flagMsg false "Database error"⟩, users)
      else
        let affectedRows := (selectByEmail users (some i)).length
        if affectedRows = 0 then
          (.responded ⟨404, flagMsg false "User not found"⟩,
            updatePassword users hashedPassword (some i))
        else
          (.responded ⟨200, flagMsg true "Password changed successfully"⟩,
            updatePassword users hashedPassword (some i))
  | _, _ => (.responded ⟨400, flagMsg false "Missing id or password"⟩, users)

/-! ## Route dispatch -/

/-- HTTP methods the file registers handlers for. -/
inductive Method where
  | GET
  | POST
  | DELETE
  deriving DecidableEq

/-- A registered route: `app.METHOD(path, handler)`, for the handlers that read
the `users` table and a login body. -/
structure Layer where
  method : Method
  path : String
  handle : List User → LoginBody → Outcome

/-- Express hands a request to the layers in registration order: the first one
whose method and path match runs, and a later one runs only if every matching
layer before it handed the request on.  `none`: no layer answered (Express then
sends its own 404). -/
def dispatch (layers : List Layer) (m : Method) (path : String) (users : List User)
    (b : LoginBody) : Option Outcome :=
  match layers with
  | [] => none
  | l :: rest =>
    if l.method = m ∧ l.path = path then
      match l.handle users b with
      | .next => dispatch rest m path users b
      | o => some o
    else dispatch rest m path users b

/-- The layers registered for `/api/login`, in the order of the file. -/
def loginLayers (compare : String → String → Bool) (selErr : Bool) : List Layer :=
  [⟨.POST, "/api/login", login compare selErr⟩,
   ⟨.POST, "/api/login", loginAlt compare selErr⟩]

/-- What a client of `POST /api/login` gets. -/
def servePostLogin (compare : String → String → Bool) (selErr : Bool) (users : List User)
    (b : LoginBody) : Option Outcome :=
  dispatch (loginLayers compare selErr) .POST "/api/login" users b

/-- The response is one of the alternative login contract: 404 "User not
found", 401 "Invalid password", or 200 with `success`, `message`, `userId`. -/
def isAltContract : Outcome → Prop
  | .responded ⟨404, .obj [("message", .str "User not found")]⟩ => True
  | .responded ⟨401, .obj [("message", .str "Invalid password")]⟩ => True
  | .responded ⟨200, .obj [("success", _), ("message", _), ("userId", _)]⟩ => True
  | _ => False

/-! ## Reviews -/

/-- WhiteSpace and LineTerminator code points, the characters
`String.prototype.trim` strips. -/
def jsWhiteSpace (c : Char) : Bool :=
  c.toNat ∈ [0x09, 0x0A, 0x0B, 0x0C, 0x0D, 0x20, 0xA0, 0x1680, 0x2000, 0x2001, 0x2002,
    0x2003, 0x2004, 0x2005, 0x2006, 0x2007, 0x2008, 0x2009, 0x200A, 0x2028, 0x2029,
    0x202F, 0x205F, 0x3000, 0xFEFF]

/-- The method `String.prototype.trim`. -/
def jsTrim (s : String) : String :=
  String.mk (((s.toList.dropWhile jsWhiteSpace).reverse.dropWhile jsWhiteSpace).reverse)

/-- A row of the `reviews` table, with the values bound to the INSERT. -/
structure Review where
  id : Nat
  name : JsVal
  rating : JsVal
  comment : String

/-- Body of `POST /api/reviews`. -/
structure ReviewBody where
  name : JsVal
  rating : JsVal
  comment : JsVal

/-- Handler of `POST /api/reviews`.  The guard is
`!name || !rating || !comment.trim()`, evaluated left to right; the call
`comment.trim()` throws a TypeError unless `comment` is a string.  `newId` is
the `insertId` of the new row, `dbErr` whether the INSERT fails. -/
def postReviews (newId : Nat) (dbErr : Bool) (reviews : List Review) (b : ReviewBody) :
    Outcome × List Review :=
  if !b.name.truthy then
    (.responded ⟨400, .obj [("error", .str "All fields are required.")]⟩, reviews)
  else if !b.rating.truthy then
    (.responded ⟨400, .obj [("error", .str "All fields are required.")]⟩, reviews)
  else
    match b.comment with
    | .str c =>
      if !(JsVal.str (jsTrim c)).truthy then
        (.responded ⟨400, .obj [("error", .str "All fields are required.")]⟩, reviews)
      else if dbErr then
        (.responded ⟨500, .obj [("error", .str "DB error")]⟩, reviews)
      else
        (.responded ⟨201, .obj [("id", .num newId), ("name", b.name),
            ("rating", b.rating), ("comment", .str c)]⟩,
          reviews ++ [⟨newId, b.name, b.rating, c⟩])
    | _ => (.threw, reviews)


/-! ## Rounding to binary64 -/

theorem floor_le_roundHalfEven (t : ℚ) : ⌊t⌋ ≤ roundHalfEven t := by
  unfold roundHalfEven
  split_ifs <;> omega

theorem roundHalfEven_le_floor_succ (t : ℚ) : roundHalfEven t ≤ ⌊t⌋ + 1 := by
  unfold roundHalfEven
  split_ifs <;> omega

theorem roundHalfEven_le (t : ℚ) (M : ℤ) (h : t ≤ M) : roundHalfEven t ≤ M := by
  have hf : ⌊t⌋ ≤ M := Int.cast_le.mp ((Int.floor_le t).trans h)
  rcases hf.lt_or_eq with hlt | heq
  · have := roundHalfEven_le_floor_succ t
    omega
  · have ht : t - ⌊t⌋ < 1 / 2 := by
      have : t ≤ (⌊t⌋ : ℚ) := by rw [heq]; exact h
      linarith
    unfold roundHalfEven
    rw [if_pos ht]
    exact hf

theorem le_roundHalfEven (t : ℚ) (M : ℤ) (h : (M : ℚ) ≤ t) : M ≤ roundHalfEven t :=
  (Int.le_floor.mpr h).trans (floor_le_roundHalfEven t)

theorem roundHalfEven_le_pred (t : ℚ) (M : ℤ) (h : t < M - 1 / 2) :
    roundHalfEven t ≤ M - 1 := by
  have hf : ⌊t⌋ ≤ M - 1 := by
    have : ⌊t⌋ < M := Int.floor_lt.mpr (by linarith)
    omega
  rcases hf.lt_or_eq with hlt | heq
  · have := roundHalfEven_le_floor_succ t
    omega
  · have ht : t - ⌊t⌋ < 1 / 2 := by
      rw [heq]; push_cast; linarith
    unfold roundHalfEven
    rw [if_pos ht]
    exact hf

theorem ulp_pos (x : ℚ) : 0 < ulp x := by
  unfold ulp; positivity

/-- Below `2^20` the spacing divides `2^-33`. -/
theorem ulp_dvd_grid (x : ℚ) (h0 : 0 < x) (h : x < 2 ^ (20 : ℤ)) :
    ∃ n : ℕ, (2 : ℚ) ^ (-33 : ℤ) = 2 ^ n * ulp x := by
  have hlog : Int.log 2 x < 20 := by
    have := (Int.lt_zpow_iff_log_lt (R := ℚ) (b := 2) (by norm_num) (x := 20) h0).mp
      (by exact_mod_cast h)
    exact this
  have hj : max (Int.log 2 |x| - 52) (-1074) ≤ -33 := by
    rw [abs_of_pos h0]; omega
  refine ⟨(-33 - max (Int.log 2 |x| - 52) (-1074)).toNat, ?_⟩
  unfold ulp
  rw [← zpow_natCast, ← zpow_add₀ (by norm_num : (2 : ℚ) ≠ 0)]
  congr 1
  omega

theorem fl_le_of_grid (x b : ℚ) (B : ℤ) (h0 : 0 < x) (h : x < 2 ^ (20 : ℤ))
    (hb : b = B * 2 ^ (-33 : ℤ)) (hxb : x ≤ b) : fl x ≤ b := by
  obtain ⟨n, hn⟩ := ulp_dvd_grid x h0 h
  have hu := ulp_pos x
  have hb2 : b = ((B * 2 ^ n : ℤ) : ℚ) * ulp x := by
    rw [hb, hn]; push_cast; ring
  have hq : x / ulp x ≤ ((B * 2 ^ n : ℤ) : ℚ) := by
    rw [div_le_iff₀ hu, ← hb2]; exact hxb
  have := roundHalfEven_le _ _ hq
  unfold fl
  rw [hb2]
  exact mul_le_mul_of_nonneg_right (by exact_mod_cast this) hu.le

theorem le_fl_of_grid (x b : ℚ) (B : ℤ) (h0 : 0 < x) (h : x < 2 ^ (20 : ℤ))
    (hb : b = B * 2 ^ (-33 : ℤ)) (hxb : b ≤ x) : b ≤ fl x := by
  obtain ⟨n, hn⟩ := ulp_dvd_grid x h0 h
  have hu := ulp_pos x
  have hb2 : b = ((B * 2 ^ n : ℤ) : ℚ) * ulp x := by
    rw [hb, hn]; push_cast; ring
  have hq : ((B * 2 ^ n : ℤ) : ℚ) ≤ x / ulp x := by
    rw [le_div_iff₀ hu, ← hb2]; exact hxb
  have := le_roundHalfEven _ _ hq
  unfold fl
  rw [hb2]
  exact mul_le_mul_of_nonneg_right (by exact_mod_cast this) hu.le

theorem fl_zero : fl 0 = 0 := by
  unfold fl roundHalfEven
  simp

/-- In the binade `[2^19, 2^20)` the spacing is `2^-33`. -/
theorem ulp_binade19 (x : ℚ) (h1 : 2 ^ (19 : ℤ) ≤ x) (h2 : x < 2 ^ (20 : ℤ)) :
    ulp x = 2 ^ (-33 : ℤ) := by
  have h0 : 0 < x := lt_of_lt_of_le (by positivity) h1
  have hlt : Int.log 2 x < 20 :=
    (Int.lt_zpow_iff_log_lt (R := ℚ) (b := 2) (by norm_num) (x := 20) h0).mp
      (by exact_mod_cast h2)
  have hge : 19 ≤ Int.log 2 x :=
    (Int.zpow_le_iff_le_log (R := ℚ) (b := 2) (by norm_num) (x := 19) h0).mp
      (by exact_mod_cast h1)
  unfold ulp
  rw [abs_of_pos h0]
  congr 1
  omega

theorem fl_product_bounds (p : ℚ) (h0 : 0 ≤ p) (h : p ≤ 900000 - 900000 / 2 ^ 53) :
    0 ≤ fl p ∧ fl p ≤ 900000 - 2 ^ (-33 : ℤ) := by
  rcases h0.lt_or_eq with hpos | hz
  · have hlt : p < 2 ^ (20 : ℤ) := by
      have : (900000 : ℚ) - 900000 / 2 ^ 53 < 2 ^ (20 : ℤ) := by norm_num
      linarith
    refine ⟨le_fl_of_grid p 0 0 hpos hlt (by simp) hpos.le, ?_⟩
    rcases lt_or_le p (2 ^ (19 : ℤ)) with hlow | hhigh
    · have := fl_le_of_grid p (2 ^ (19 : ℤ)) (2 ^ 52) hpos hlt (by norm_num) hlow.le
      have h2 : (2 : ℚ) ^ (19 : ℤ) ≤ 900000 - 2 ^ (-33 : ℤ) := by norm_num
      linarith
    · have hu := ulp_binade19 p hhigh hlt
      have hq : p / ulp p < ((900000 * 2 ^ 33 : ℤ) : ℚ) - 1 / 2 := by
        rw [hu, div_lt_iff₀ (by positivity)]
        have : (((900000 * 2 ^ 33 : ℤ) : ℚ) - 1 / 2) * 2 ^ (-33 : ℤ)
            = 900000 - 2 ^ (-34 : ℤ) := by norm_num
        rw [this]
        have : (900000 : ℚ) - 900000 / 2 ^ 53 < 900000 - 2 ^ (-34 : ℤ) := by norm_num
        exact lt_of_le_of_lt h this
      have := roundHalfEven_le_pred _ _ hq
      unfold fl
      have hc : ((roundHalfEven (p / ulp p) : ℤ) : ℚ) ≤ ((900000 * 2 ^ 33 - 1 : ℤ) : ℚ) := by
        exact_mod_cast this
      calc (roundHalfEven (p / ulp p) : ℚ) * ulp p
          ≤ ((900000 * 2 ^ 33 - 1 : ℤ) : ℚ) * ulp p :=
            mul_le_mul_of_nonneg_right hc (ulp_pos p).le
        _ = 900000 - 2 ^ (-33 : ℤ) := by rw [hu]; norm_num
  · rw [← hz, fl_zero]
    norm_num

theorem fl_sum_bounds (y : ℚ) (h0 : 0 ≤ y) (h : y ≤ 900000 - 2 ^ (-33 : ℤ)) :
    100000 ≤ fl (100000 + y) ∧ fl (100000 + y) ≤ 1000000 - 2 ^ (-33 : ℤ) := by
  have hpos : (0 : ℚ) < 100000 + y := by linarith
  have hlt : 100000 + y < 2 ^ (20 : ℤ) := by
    have : (1000000 : ℚ) - 2 ^ (-33 : ℤ) < 2 ^ (20 : ℤ) := by norm_num
    linarith
  constructor
  · exact le_fl_of_grid _ 100000 (100000 * 2 ^ 33) hpos hlt (by norm_num) (by linarith)
  · exact fl_le_of_grid _ (1000000 - 2 ^ (-33 : ℤ)) (1000000 * 2 ^ 33 - 1) hpos hlt
      (by norm_num) (by linarith)

/-- A binary64 number below 1 is at most `1 - 2^-53`. -/
theorem isDouble_lt_one (r : ℚ) (hd : isDouble r) (h0 : 0 ≤ r) (h1 : r < 1) :
    r ≤ 1 - 1 / 2 ^ 53 := by
  rcases h0.lt_or_eq with hpos | hz
  · have hlog : Int.log 2 r < 0 :=
      (Int.lt_zpow_iff_log_lt (R := ℚ) (b := 2) (by norm_num) (x := 0) hpos).mp
        (by simpa using h1)
    rcases lt_or_le (Int.log 2 r) (-1) with hl | hl
    · have h2 := Int.lt_zpow_succ_log_self (R := ℚ) (b := 2) (by norm_num) r
      have h3 : ((2 : ℕ) : ℚ) ^ (Int.log 2 r + 1) ≤ ((2 : ℕ) : ℚ) ^ (-1 : ℤ) :=
        zpow_le_zpow_right₀ (by norm_num) (by omega)
      have h4 : (((2 : ℕ) : ℚ)) ^ (-1 : ℤ) ≤ 1 - 1 / 2 ^ 53 := by norm_num
      exact le_of_lt (lt_of_lt_of_le h2 (h3.trans h4))
    · have he : Int.log 2 r = -1 := by omega
      have hu : ulp r = 2 ^ (-53 : ℤ) := by
        unfold ulp
        rw [abs_of_pos hpos, he]
        norm_num
      unfold isDouble fl at hd
      rw [hu] at hd
      set m := roundHalfEven (r / 2 ^ (-53 : ℤ)) with hm
      have hm1 : (m : ℚ) < 2 ^ 53 := by
        have : (m : ℚ) * 2 ^ (-53 : ℤ) < 1 := by rw [hd]; exact h1
        have h5 : (m : ℚ) * 2 ^ (-53 : ℤ) * 2 ^ 53 < 1 * 2 ^ 53 :=
          mul_lt_mul_of_pos_right this (by positivity)
        have h6 : (m : ℚ) * 2 ^ (-53 : ℤ) * 2 ^ 53 = m := by
          rw [mul_assoc]; norm_num
        linarith
      have hm2 : m ≤ 2 ^ 53 - 1 := by
        have : m < 2 ^ 53 := by exact_mod_cast hm1
        omega
      have hm3 : (m : ℚ) ≤ 2 ^ 53 - 1 := by exact_mod_cast hm2
      rw [← hd]
      calc (m : ℚ) * 2 ^ (-53 : ℤ) ≤ (2 ^ 53 - 1) * 2 ^ (-53 : ℤ) :=
            mul_le_mul_of_nonneg_right hm3 (by positivity)
        _ = 1 - 1 / 2 ^ 53 := by norm_num
  · rw [← hz]; norm_num

theorem otpNumber_bounds (r : ℚ) (hd : isDouble r) (h0 : 0 ≤ r) (h1 : r < 1) :
    100000 ≤ otpNumber r ∧ otpNumber r ≤ 999999 := by
  have hr := isDouble_lt_one r hd h0 h1
  have hp := fl_product_bounds (r * 900000) (by positivity) (by linarith)
  have hs := fl_sum_bounds _ hp.1 hp.2
  unfold otpNumber
  constructor
  · exact Int.le_floor.mpr (by exact_mod_cast hs.1)
  · have : ⌊fl (100000 + fl (r * 900000))⌋ < 1000000 :=
      Int.floor_lt.mpr (by
        have : (1000000 : ℚ) - 2 ^ (-33 : ℤ) < ((1000000 : ℤ) : ℚ) := by norm_num
        linarith [hs.2])
    omega

/-- The two smallest draws give the smallest code. -/
theorem otpNumber_of_small (r : ℚ) (h0 : 0 ≤ r) (h : r ≤ 1 / 2 ^ 53) :
    otpNumber r = 100000 := by
  have hp0 : (0 : ℚ) ≤ r * 900000 := by positivity
  have hp1 : r * 900000 ≤ 2 ^ (-33 : ℤ) := by
    have : r * 900000 ≤ 1 / 2 ^ 53 * 900000 := mul_le_mul_of_nonneg_right h (by norm_num)
    have h2 : (1 : ℚ) / 2 ^ 53 * 900000 ≤ 2 ^ (-33 : ℤ) := by norm_num
    exact this.trans h2
  have hy : 0 ≤ fl (r * 900000) ∧ fl (r * 900000) ≤ 2 ^ (-33 : ℤ) := by
    rcases hp0.lt_or_eq with hpos | hz
    · have hlt : r * 900000 < 2 ^ (20 : ℤ) :=
        lt_of_le_of_lt hp1 (by norm_num)
      exact ⟨le_fl_of_grid _ 0 0 hpos hlt (by simp) hpos.le,
        fl_le_of_grid _ _ 1 hpos hlt (by norm_num) hp1⟩
    · rw [← hz, fl_zero]
      exact ⟨le_refl 0, by positivity⟩
  have hpos : (0 : ℚ) < 100000 + fl (r * 900000) := by linarith [hy.1]
  have hlt : 100000 + fl (r * 900000) < 2 ^ (20 : ℤ) := by
    have h3 : (100000 : ℚ) + 2 ^ (-33 : ℤ) < 2 ^ (20 : ℤ) := by norm_num
    exact lt_of_le_of_lt (by linarith [hy.2]) h3
  have hlo : (100000 : ℚ) ≤ fl (100000 + fl (r * 900000)) :=
    le_fl_of_grid _ 100000 (100000 * 2 ^ 33) hpos hlt (by norm_num) (by linarith [hy.1])
  have hhi : fl (100000 + fl (r * 900000)) ≤ 100000 + 2 ^ (-33 : ℤ) :=
    fl_le_of_grid _ _ (100000 * 2 ^ 33 + 1) hpos hlt (by norm_num) (by linarith [hy.2])
  unfold otpNumber
  rw [Int.floor_eq_iff]
  constructor
  · exact_mod_cast hlo
  · have h4 : (100000 : ℚ) + 2 ^ (-33 : ℤ) < ((100000 : ℤ) : ℚ) + 1 := by norm_num
    exact lt_of_le_of_lt hhi h4

/-! ## Decimal numerals -/

theorem toDigits_six (m : ℕ) (h1 : 100000 ≤ m) (h2 : m ≤ 999999) :
    Nat.toDigits 10 m = [Nat.digitChar (m / 100000), Nat.digitChar (m / 10000 % 10),
      Nat.digitChar (m / 1000 % 10), Nat.digitChar (m / 100 % 10),
      Nat.digitChar (m / 10 % 10), Nat.digitChar (m % 10)] := by
  obtain ⟨k, hk⟩ : ∃ k, m + 1 = k + 6 := ⟨m - 5, by omega⟩
  unfold Nat.toDigits
  rw [hk]
  simp only [Nat.toDigitsCore]
  have e1 : m / 10 ≠ 0 := by omega
  have e2 : m / 10 / 10 ≠ 0 := by omega
  have e3 : m / 10 / 10 / 10 ≠ 0 := by omega
  have e4 : m / 10 / 10 / 10 / 10 ≠ 0 := by omega
  have e5 : m / 10 / 10 / 10 / 10 / 10 ≠ 0 := by omega
  have e6 : m / 10 / 10 / 10 / 10 / 10 / 10 = 0 := by omega
  simp only [e1, e2, e3, e4, e5, e6, if_true, if_false]
  have a1 : m / 10 / 10 = m / 100 := by omega
  have a2 : m / 10 / 10 / 10 = m / 1000 := by omega
  have a3 : m / 10 / 10 / 10 / 10 = m / 10000 := by omega
  have a4 : m / 10 / 10 / 10 / 10 / 10 = m / 100000 := by omega
  rw [a4, a3, a2, a1]
  have a5 : m / 100000 % 10 = m / 100000 := by omega
  rw [a5]

theorem toString_int_ofNat (m : ℕ) : toString ((m : ℕ) : ℤ) = (Nat.toDigits 10 m).asString := rfl

theorem digitChar_isDigit (d : ℕ) (h : d < 10) : (Nat.digitChar d).isDigit = true := by
  interval_cases d <;> decide

theorem digitChar_ne_zero (d : ℕ) (h0 : 0 < d) (h : d < 10) : Nat.digitChar d ≠ '0' := by
  interval_cases d <;> decide

theorem toDigitsCore_ne_nil (f n : ℕ) (ds : List Char) (h : 0 < f ∨ ds ≠ []) :
    Nat.toDigitsCore 10 f n ds ≠ [] := by
  induction f generalizing n ds with
  | zero =>
    rcases h with h | h
    · omega
    · simpa [Nat.toDigitsCore] using h
  | succ f ih =>
    simp only [Nat.toDigitsCore]
    split_ifs
    · simp
    · exact ih _ _ (Or.inr (by simp))

theorem toString_int_ne_empty (n : ℤ) : toString n ≠ "" := by
  cases n with
  | ofNat m =>
    show (Nat.toDigits 10 m).asString ≠ ""
    intro h
    have := congrArg String.data h
    exact toDigitsCore_ne_nil (m+1) m [] (Or.inl (by omega)) this
  | negSucc m =>
    show "-" ++ toString (m+1) ≠ ""
    intro h
    have := congrArg String.length h
    rw [String.length_append] at this
    have h1 : "-".length = 1 := by decide
    have h2 : "".length = 0 := by decide
    omega

theorem isDouble_zero : isDouble 0 := fl_zero

theorem generateOtp_ne_empty (r : ℚ) : generateOtp r ≠ "" :=
  toString_int_ne_empty (otpNumber r)

/-- C5: for every draw `r` of `Math.random()` (a binary64 number with
`0 ≤ r < 1`), `Math.floor(100000 + r * 900000)` is an integer `n` with
`100000 ≤ n ≤ 999999`, and `generateOtp` returns the decimal numeral of `n`:
six characters, each a digit, the first one not `0`. -/
theorem generateOtp_six_digits (r : ℚ) (hd : isDouble r) (h0 : 0 ≤ r) (h1 : r < 1) :
    100000 ≤ otpNumber r ∧ otpNumber r ≤ 999999 ∧
    generateOtp r = toString (otpNumber r) ∧
    generateOtp r = String.mk
      [Nat.digitChar ((otpNumber r).toNat / 100000),
       Nat.digitChar ((otpNumber r).toNat / 10000 % 10),
       Nat.digitChar ((otpNumber r).toNat / 1000 % 10),
       Nat.digitChar ((otpNumber r).toNat / 100 % 10),
       Nat.digitChar ((otpNumber r).toNat / 10 % 10),
       Nat.digitChar ((otpNumber r).toNat % 10)] ∧
    (generateOtp r).length = 6 ∧
    (∀ c ∈ (generateOtp r).toList, c.isDigit = true) ∧
    (generateOtp r).toList.head? ≠ some '0' := by
  obtain ⟨hlo, hhi⟩ := otpNumber_bounds r hd h0 h1
  obtain ⟨m, hm⟩ : ∃ m : ℕ, otpNumber r = (m : ℤ) :=
    ⟨(otpNumber r).toNat, (Int.toNat_of_nonneg (by omega)).symm⟩
  have hm1 : 100000 ≤ m := by omega
  have hm2 : m ≤ 999999 := by omega
  have hs : generateOtp r = String.mk
      [Nat.digitChar (m / 100000), Nat.digitChar (m / 10000 % 10),
       Nat.digitChar (m / 1000 % 10), Nat.digitChar (m / 100 % 10),
       Nat.digitChar (m / 10 % 10), Nat.digitChar (m % 10)] := by
    unfold generateOtp
    rw [hm, toString_int_ofNat, toDigits_six m hm1 hm2]
    rfl
  refine ⟨hlo, hhi, rfl, ?_, ?_, ?_, ?_⟩
  · rw [hs, hm, Int.toNat_ofNat]
  · rw [hs]; rfl
  · rw [hs]
    intro c hc
    simp only [String.toList, List.mem_cons, List.mem_singleton, List.not_mem_nil,
      or_false] at hc
    rcases hc with h | h | h | h | h | h <;> rw [h] <;>
      exact digitChar_isDigit _ (by omega)
  · rw [hs]
    simp only [String.toList, List.head?_cons, ne_eq, Option.some.injEq]
    exact digitChar_ne_zero _ (by omega) (by omega)

theorem generateOtp_six_digits_witness :
    isDouble 0 ∧ (0 : ℚ) ≤ 0 ∧ (0 : ℚ) < 1 ∧
    100000 ≤ otpNumber 0 ∧ otpNumber 0 ≤ 999999 ∧
    (generateOtp 0).length = 6 ∧
    (∀ c ∈ (generateOtp 0).toList, c.isDigit = true) ∧
    (generateOtp 0).toList.head? ≠ some '0' :=
  have h := generateOtp_six_digits 0 isDouble_zero (le_refl 0) (by norm_num)
  ⟨isDouble_zero, le_refl 0, by norm_num, h.1, h.2.1, h.2.2.2.2.1, h.2.2.2.2.2.1,
    h.2.2.2.2.2.2⟩

/-! ## The OTP exchange -/

theorem get_set_self (store : OtpStore) (k v : String)
    (hk : k ≠ "__proto__" ∨ store k ≠ none) : (store.set k v).get k = .str v := by
  have hcond : ((store k).isNone && k == "__proto__") = false := by
    rcases hk with h | h
    · simp [h]
    · cases hsk : store k with
      | none => exact absurd hsk h
      | some c => simp
  simp [OtpStore.set, OtpStore.get, hcond]

theorem set_proto_absent (store : OtpStore) (v : String) (h : store "__proto__" = none) :
    store.set "__proto__" v = store := by
  simp [OtpStore.set, h]

theorem get_proto_absent (store : OtpStore) (h : store "__proto__" = none) :
    store.get "__proto__" = .inherited := by
  simp [OtpStore.get, h, objectPrototypeKeys]

theorem delete_self (store : OtpStore) (k : String) : (store.delete k) k = none := by
  simp [OtpStore.delete]

theorem delete_other (store : OtpStore) (k j : String) (h : j ≠ k) :
    (store.delete k) j = store j := by
  simp [OtpStore.delete, Function.update, h]

theorem otpVerified_ne_invalidOtp : otpVerified ≠ invalidOtp := by
  simp [otpVerified, invalidOtp]

theorem sendOtp_store (r : ℚ) (mailError : Option String) (store : OtpStore) (e : String)
    (he : e ≠ "") :
    (sendOtp r mailError store (some e)).2 = store.set e (generateOtp r) := by
  cases mailError <;> simp [sendOtp, he]

/-- The handler on a present email and code: the branch taken is decided by the
property read alone. -/
theorem verifyOtp_present (store : OtpStore) (e : String) (otp : JsVal) (he : e ≠ "")
    (ho : otp.truthy = true) :
    verifyOtp store (some e) otp =
      if (store.get e).truthy && strictEq otp (store.get e) then
        (otpVerified, store.delete e)
      else (invalidOtp, store) := by
  simp [verifyOtp, he, ho, otpVerified, invalidOtp]

theorem verifyOtp_held (store : OtpStore) (e c : String) (he : e ≠ "") (hc : c ≠ "")
    (hs : store.get e = .str c) :
    verifyOtp store (some e) (.str c) = (otpVerified, store.delete e) := by
  rw [verifyOtp_present store e (.str c) he (by simp [JsVal.truthy, hc]), hs]
  simp [PropVal.truthy, strictEq, hc]

theorem verifyOtp_other (store : OtpStore) (e : String) (w : JsVal) (he : e ≠ "")
    (hw : w.truthy = true) (hs : ∀ c, store.get e = .str c → w ≠ .str c) :
    verifyOtp store (some e) w = (invalidOtp, store) := by
  rw [verifyOtp_present store e w he hw]
  cases hg : store.get e with
  | undefined => simp [PropVal.truthy]
  | inherited => cases w <;> simp [strictEq]
  | str c =>
    have hne := hs c hg
    cases w <;> simp_all [strictEq]

theorem get_delete_ne_str (store : OtpStore) (e c : String) :
    (store.delete e).get e ≠ .str c := by
  simp only [OtpStore.get, delete_self]
  split_ifs <;> simp

/-- The round trip for every key that the assignment can store under: the code
verifies once, its entry is removed, and it does not verify a second time. -/
theorem sendOtp_verifyOtp_once (r : ℚ) (mailError : Option String) (store : OtpStore)
    (e : String) (he : e ≠ "") (hk : e ≠ "__proto__" ∨ store e ≠ none) :
    verifyOtp (sendOtp r mailError store (some e)).2 (some e) (.str (generateOtp r)) =
      (otpVerified, ((sendOtp r mailError store (some e)).2).delete e) ∧
    verifyOtp (((sendOtp r mailError store (some e)).2).delete e) (some e)
      (.str (generateOtp r)) =
      (invalidOtp, ((sendOtp r mailError store (some e)).2).delete e) := by
  rw [sendOtp_store r mailError store e he]
  constructor
  · exact verifyOtp_held _ e _ he (generateOtp_ne_empty r) (get_set_self store e _ hk)
  · exact verifyOtp_other _ e _ he (by simp [JsVal.truthy, generateOtp_ne_empty r])
      (fun c hc => absurd hc (get_delete_ne_str _ e c))

/-- C1 (fails on the code): for the non-empty email `__proto__`, on a store
without an own property of that name (every store the handlers can build), the
assignment in `/send-otp` stores nothing, and `/verify-otp` with the code just
generated answers 400 "Invalid OTP" instead of "OTP verified". -/
theorem sendOtp_proto_key_not_stored (r : ℚ) (mailError : Option String)
    (store : OtpStore) (h : store "__proto__" = none) :
    (sendOtp r mailError store (some "__proto__")).2 = store ∧
    verifyOtp (sendOtp r mailError store (some "__proto__")).2 (some "__proto__")
      (.str (generateOtp r)) = (invalidOtp, store) ∧
    (verifyOtp (sendOtp r mailError store (some "__proto__")).2 (some "__proto__")
      (.str (generateOtp r))).1 ≠ otpVerified := by
  have hne : ("__proto__" : String) ≠ "" := by decide
  have hst : (sendOtp r mailError store (some "__proto__")).2 = store := by
    rw [sendOtp_store r mailError store _ hne, set_proto_absent store _ h]
  have hv : verifyOtp store (some "__proto__") (.str (generateOtp r)) = (invalidOtp, store) :=
    verifyOtp_other store _ _ hne (by simp [JsVal.truthy, generateOtp_ne_empty r])
      (fun c hc => by rw [get_proto_absent store h] at hc; cases hc)
  rw [hst, hv]
  exact ⟨rfl, rfl, fun h => otpVerified_ne_invalidOtp h.symm⟩

theorem sendOtp_proto_key_not_stored_witness :
    OtpStore.empty "__proto__" = none ∧
    verifyOtp (sendOtp 0 none OtpStore.empty (some "__proto__")).2 (some "__proto__")
      (.str (generateOtp 0)) = (invalidOtp, OtpStore.empty) :=
  ⟨rfl, (sendOtp_proto_key_not_stored 0 none OtpStore.empty rfl).2.1⟩

theorem get_eq_str_iff (store : OtpStore) (e c : String) :
    store.get e = .str c ↔ store e = some c := by
  unfold OtpStore.get
  cases h : store e with
  | none => split_ifs <;> simp
  | some d => simp

/-- C2: on a request whose email and otp are both present (they pass the guard
`!email || !otp`), `/verify-otp` answers "OTP verified" exactly when the store
holds a code for that email and the supplied otp is that very string; it then
removes the entry for the email and nothing else; in every other case it
answers 400 "Invalid OTP" and leaves the store as it was.  A supplied number
never verifies, whatever its digits. -/
theorem verifyOtp_decision (store : OtpStore) (e : String) (otp : JsVal) (he : e ≠ "")
    (ho : otp.truthy = true) :
    ((verifyOtp store (some e) otp).1 = otpVerified ↔
      ∃ c, store e = some c ∧ otp = .str c) ∧
    ((verifyOtp store (some e) otp).1 = otpVerified →
      (verifyOtp store (some e) otp).2 = store.delete e ∧
      (verifyOtp store (some e) otp).2 e = none ∧
      ∀ k, k ≠ e → (verifyOtp store (some e) otp).2 k = store k) ∧
    ((verifyOtp store (some e) otp).1 ≠ otpVerified →
      verifyOtp store (some e) otp = (invalidOtp, store)) ∧
    (∀ n : Int, otp = .num n → verifyOtp store (some e) otp = (invalidOtp, store)) := by
  by_cases hex : ∃ c, store e = some c ∧ otp = .str c
  · obtain ⟨c, hc, rfl⟩ := hex
    have hcne : c ≠ "" := by simpa [JsVal.truthy] using ho
    have hv := verifyOtp_held store e c he hcne ((get_eq_str_iff store e c).mpr hc)
    rw [hv]
    refine ⟨⟨fun _ => ⟨c, hc, rfl⟩, fun _ => rfl⟩, fun _ => ⟨rfl, delete_self store e,
      fun k hk => delete_other store e k hk⟩, fun h => absurd rfl h, fun n hn => ?_⟩
    cases hn
  · have hv := verifyOtp_other store e otp he ho (fun c hc hw =>
      hex ⟨c, (get_eq_str_iff store e c).mp hc, hw⟩)
    rw [hv]
    refine ⟨⟨fun h => absurd h.symm otpVerified_ne_invalidOtp, fun h => absurd h hex⟩,
      fun h => absurd h.symm otpVerified_ne_invalidOtp, fun _ => rfl, fun _ _ => rfl⟩

theorem verifyOtp_decision_witness :
    ("a@x.com" : String) ≠ "" ∧ (JsVal.num 123456).truthy = true ∧
    verifyOtp (OtpStore.empty.set "a@x.com" "123456") (some "a@x.com") (.num 123456) =
      (invalidOtp, OtpStore.empty.set "a@x.com" "123456") :=
  ⟨by decide, rfl,
    (verifyOtp_decision (OtpStore.empty.set "a@x.com" "123456") "a@x.com" (.num 123456)
      (by decide) rfl).2.2.2 123456 rfl⟩

/-- C3: when the store holds the code `c` for the email `e` and a different
code `w` is supplied, `/verify-otp` answers 400 "Invalid OTP" and leaves the
whole store unchanged, and the request `(e, c)` made afterwards still answers
"OTP verified". -/
theorem verifyOtp_wrong_code_keeps_entry (store : OtpStore) (e c : String) (w : JsVal)
    (he : e ≠ "") (hc : c ≠ "") (hs : store e = some c) (hw : w.truthy = true)
    (hne : w ≠ .str c) :
    verifyOtp store (some e) w = (invalidOtp, store) ∧
    (verifyOtp (verifyOtp store (some e) w).2 (some e) (.str c)).1 = otpVerified := by
  have hv : verifyOtp store (some e) w = (invalidOtp, store) :=
    verifyOtp_other store e w he hw (fun d hd hwd => by
      have hd2 := (get_eq_str_iff store e d).mp hd
      rw [hs] at hd2
      cases hd2
      exact hne hwd)
  refine ⟨hv, ?_⟩
  rw [hv, verifyOtp_held store e c he hc ((get_eq_str_iff store e c).mpr hs)]

theorem verifyOtp_wrong_code_keeps_entry_witness :
    ("a@x.com" : String) ≠ "" ∧ ("123456" : String) ≠ "" ∧
    (OtpStore.empty.set "a@x.com" "123456") "a@x.com" = some "123456" ∧
    (JsVal.str "654321").truthy = true ∧ JsVal.str "654321" ≠ JsVal.str "123456" ∧
    verifyOtp (OtpStore.empty.set "a@x.com" "123456") (some "a@x.com") (.str "654321") =
      (invalidOtp, OtpStore.empty.set "a@x.com" "123456") :=
  ⟨by decide, by decide, by simp [OtpStore.set, OtpStore.empty], by simp [JsVal.truthy],
    by simp,
    (verifyOtp_wrong_code_keeps_entry (OtpStore.empty.set "a@x.com" "123456") "a@x.com"
      "123456" (.str "654321") (by decide) (by decide)
      (by simp [OtpStore.set, OtpStore.empty]) (by simp [JsVal.truthy]) (by simp)).1⟩

theorem generateOtp_congr (a b : ℚ) (h : otpNumber a = otpNumber b) :
    generateOtp a = generateOtp b := by
  unfold generateOtp
  rw [h]

theorem otpNumber_smallest_draws : otpNumber 0 = otpNumber (1 / 2 ^ 53) :=
  (otpNumber_of_small 0 (le_refl 0) (by norm_num)).trans
    (otpNumber_of_small (1 / 2 ^ 53) (by norm_num) (le_refl _)).symm

theorem generateOtp_smallest_draws : generateOtp 0 = generateOtp (1 / 2 ^ 53) :=
  generateOtp_congr _ _ otpNumber_smallest_draws

theorem roundHalfEven_intCast (n : ℤ) : roundHalfEven (n : ℚ) = n := by
  unfold roundHalfEven
  simp

theorem isDouble_smallest_step : isDouble (1 / 2 ^ 53) := by
  have hx : (1 : ℚ) / 2 ^ 53 = ((2 : ℕ) : ℚ) ^ (-53 : ℤ) := by norm_num
  have hlog : Int.log 2 |(1 : ℚ) / 2 ^ 53| = -53 := by
    rw [abs_of_pos (by positivity), hx]
    exact Int.log_zpow (R := ℚ) (b := 2) (by norm_num) (-53)
  have hu : ulp (1 / 2 ^ 53) = 2 ^ (-105 : ℤ) := by
    unfold ulp
    rw [hlog]
    norm_num
  have hq : (1 : ℚ) / 2 ^ 53 / 2 ^ (-105 : ℤ) = ((2 ^ 52 : ℤ) : ℚ) := by norm_num
  unfold isDouble fl
  rw [hu, hq, roundHalfEven_intCast]
  norm_num

/-- C4, as stated, fails: the draws `0` and `2^-53`, both binary64 numbers in
`[0, 1)`, produce the same code; after `/send-otp` is handled for `a@x.com`
with the first draw and then with the second, the request with the first code
answers "OTP verified", not 400 "Invalid OTP". -/
theorem reissue_equal_codes_first_verifies :
    isDouble 0 ∧ isDouble (1 / 2 ^ 53) ∧ generateOtp 0 = generateOtp (1 / 2 ^ 53) ∧
    (verifyOtp (sendOtp (1 / 2 ^ 53) none (sendOtp 0 none OtpStore.empty
        (some "a@x.com")).2 (some "a@x.com")).2 (some "a@x.com")
        (.str (generateOtp 0))).1 = otpVerified ∧
    (verifyOtp (sendOtp (1 / 2 ^ 53) none (sendOtp 0 none OtpStore.empty
        (some "a@x.com")).2 (some "a@x.com")).2 (some "a@x.com")
        (.str (generateOtp 0))).1 ≠ invalidOtp := by
  have h2 := (sendOtp_verifyOtp_once (1 / 2 ^ 53) none
    (sendOtp 0 none OtpStore.empty (some "a@x.com")).2
    "a@x.com" (by decide) (Or.inl (by decide))).1
  refine ⟨isDouble_zero, isDouble_smallest_step, generateOtp_smallest_draws, ?_⟩
  rw [generateOtp_smallest_draws, h2]
  exact ⟨rfl, otpVerified_ne_invalidOtp⟩

/-- C4 (amended): for every non-empty email other than the key `__proto__`,
after `/send-otp` is handled twice with no verification in between, producing
`c1` and then `c2`: the request `(e, c2)` answers "OTP verified"; a supplied
code verifies only if it is `c2`; and the request `(e, c1)` answers 400
"Invalid OTP", leaving the store unchanged, whenever `c1` differs from `c2`. -/
theorem reissue_overwrites (r1 r2 : ℚ) (m1 m2 : Option String) (store : OtpStore)
    (e : String) (he : e ≠ "") (hp : e ≠ "__proto__") :
    (verifyOtp (sendOtp r2 m2 (sendOtp r1 m1 store (some e)).2 (some e)).2 (some e)
      (.str (generateOtp r2))).1 = otpVerified ∧
    (∀ w : JsVal, w.truthy = true →
      (verifyOtp (sendOtp r2 m2 (sendOtp r1 m1 store (some e)).2 (some e)).2 (some e) w).1
        = otpVerified → w = .str (generateOtp r2)) ∧
    (generateOtp r1 ≠ generateOtp r2 →
      verifyOtp (sendOtp r2 m2 (sendOtp r1 m1 store (some e)).2 (some e)).2 (some e)
        (.str (generateOtp r1)) =
      (invalidOtp, (sendOtp r2 m2 (sendOtp r1 m1 store (some e)).2 (some e)).2)) := by
  have hget : ((sendOtp r2 m2 (sendOtp r1 m1 store (some e)).2 (some e)).2).get e =
      .str (generateOtp r2) := by
    rw [sendOtp_store r2 m2 _ e he]
    exact get_set_self _ e _ (Or.inl hp)
  refine ⟨?_, ?_, ?_⟩
  · rw [verifyOtp_held _ e _ he (generateOtp_ne_empty r2) hget]
  · intro w hw hv
    by_contra hne
    have := verifyOtp_other _ e w he hw (fun c hc => by
      rw [hget] at hc
      cases hc
      exact hne)
    rw [this] at hv
    exact otpVerified_ne_invalidOtp hv.symm
  · intro hne
    exact verifyOtp_other _ e _ he (by simp [JsVal.truthy, generateOtp_ne_empty r1])
      (fun c hc => by
        rw [hget] at hc
        cases hc
        simpa using hne)

theorem reissue_overwrites_witness :
    ("a@x.com" : String) ≠ "" ∧ ("a@x.com" : String) ≠ "__proto__" ∧
    (verifyOtp (sendOtp 0 none (sendOtp 0 none OtpStore.empty (some "a@x.com")).2
      (some "a@x.com")).2 (some "a@x.com") (.str (generateOtp 0))).1 = otpVerified :=
  ⟨by decide, by decide,
    (reissue_overwrites 0 0 none none OtpStore.empty "a@x.com" (by decide) (by decide)).1⟩

/-! ## Signup -/

theorem sqlEq_some (e : String) (col : Option String) :
    sqlEq (some e) col = decide (col = some e) := by
  cases col with
  | none => simp [sqlEq]
  | some c =>
    simp only [sqlEq, Option.some.injEq]
    by_cases h : e = c
    · simp [h]
    · have h2 : ¬ c = e := fun hc => h hc.symm
      simp [h, h2]

theorem selectByEmail_some (users : List User) (e : String) :
    selectByEmail users (some e) = users.filter (fun u => decide (u.email = some e)) := by
  unfold selectByEmail
  congr 1
  funext u
  exact sqlEq_some e u.email

theorem selectByEmail_ne_nil_iff (users : List User) (e : String) :
    selectByEmail users (some e) ≠ [] ↔ ∃ u ∈ users, u.email = some e := by
  rw [selectByEmail_some]
  constructor
  · intro h
    obtain ⟨u, hu⟩ := List.exists_mem_of_ne_nil _ h
    rw [List.mem_filter] at hu
    exact ⟨u, hu.1, by simpa using hu.2⟩
  · rintro ⟨u, hu, he⟩ h
    have : u ∈ users.filter (fun u => decide (u.email = some e)) :=
      List.mem_filter.mpr ⟨hu, by simpa using he⟩
    rw [h] at this
    cases this

theorem signup_existing (hash : String → String) (newId : Nat) (insErr : Bool)
    (users : List User) (b : SignupBody) (h : selectByEmail users b.email ≠ []) :
    signup hash newId false insErr users b =
      (.responded ⟨400, msg "Email already registered"⟩, users) := by
  have hl : (selectByEmail users b.email).length > 0 := List.length_pos.mpr h
  simp [signup, hl]

theorem signup_fresh (hash : String → String) (newId : Nat) (users : List User)
    (b : SignupBody) (p : String) (h : selectByEmail users b.email = [])
    (hp : b.password = some p) :
    signup hash newId false false users b =
      (.responded ⟨200, msg "User registered successfully"⟩,
        users ++ [⟨newId, b.firstName, b.lastName, b.email, b.phone, b.address, hash p⟩]) := by
  simp [signup, h, hp]

/-- One signup request leaves the table as it was or appends one row, and it
appends only when no row matched the request's email. -/
theorem signupStep_cases (users : List User) (c : SignupCall) :
    signupStep users c = users ∨
    ∃ u : User, u.email = c.body.email ∧ selectByEmail users c.body.email = [] ∧
      signupStep users c = users ++ [u] := by
  unfold signupStep signup
  by_cases h1 : c.selErr = true
  · simp [h1]
  · by_cases h2 : (selectByEmail users c.body.email).length > 0
    · simp [h1, h2]
    · have h3 : selectByEmail users c.body.email = [] := by
        cases hs : selectByEmail users c.body.email with
        | nil => rfl
        | cons a t => rw [hs] at h2; simp at h2
      cases hp : c.body.password with
      | none => simp [h1, h3]
      | some p =>
        by_cases h4 : c.insErr = true
        · simp [h1, h3, h4]
        · right
          exact ⟨⟨c.newId, c.body.firstName, c.body.lastName, c.body.email, c.body.phone,
            c.body.address, c.hash p⟩, rfl, h3, by simp [h1, h3, h4]⟩

theorem uniqueEmails_signupStep (users : List User) (c : SignupCall)
    (h : UniqueEmails users) : UniqueEmails (signupStep users c) := by
  rcases signupStep_cases users c with hs | ⟨u, hu, hnone, hs⟩
  · rw [hs]; exact h
  · rw [hs]
    intro e
    rw [List.filter_append, List.length_append]
    by_cases he : u.email = some e
    · have h0 : users.filter (fun u => decide (u.email = some e)) = [] := by
        rw [← selectByEmail_some, ← he, hu]; exact hnone
      rw [h0]
      simp [he]
    · have := h e
      simp [List.filter_cons, he]
      exact this

theorem uniqueEmails_signupAll (calls : List SignupCall) (users : List User)
    (h : UniqueEmails users) : UniqueEmails (signupAll users calls) := by
  induction calls generalizing users with
  | nil => exact h
  | cons c rest ih => exact ih _ (uniqueEmails_signupStep users c h)

theorem email_kept_signupStep (users : List User) (c : SignupCall) (e : String)
    (h : ∃ u ∈ users, u.email = some e) : ∃ u ∈ signupStep users c, u.email = some e := by
  rcases signupStep_cases users c with hs | ⟨v, _, _, hs⟩
  · rw [hs]; exact h
  · obtain ⟨u, hu, he⟩ := h
    rw [hs]
    exact ⟨u, List.mem_append_left _ hu, he⟩

theorem email_kept_signupAll (calls : List SignupCall) (users : List User) (e : String)
    (h : ∃ u ∈ users, u.email = some e) :
    ∃ u ∈ signupAll users calls, u.email = some e := by
  induction calls generalizing users with
  | nil => exact h
  | cons c rest ih => exact ih _ (email_kept_signupStep users c e h)

/-- Signup on the requests that carry a password.  With the store answering
without error, a signup request with email `e` answers 400 "Email already
registered" and leaves the table unchanged when a row has that email, whatever
the other fields; otherwise, for a request carrying a password, it answers 200
and appends exactly one row, holding the request's fields with the hash in
place of the password.  A table with at most one row per email keeps that
property through every sequence of signup requests, and once a signup with `e`
has succeeded every later signup with `e` answers 400 and changes nothing. -/
theorem signup_email_unique (hash : String → String) (newId : Nat) (users : List User)
    (b : SignupBody) (e : String) (he : b.email = some e) :
    ((∃ u ∈ users, u.email = some e) →
      signup hash newId false false users b =
        (.responded ⟨400, msg "Email already registered"⟩, users)) ∧
    ((¬ ∃ u ∈ users, u.email = some e) → ∀ p, b.password = some p →
      signup hash newId false false users b =
        (.responded ⟨200, msg "User registered successfully"⟩,
          users ++ [⟨newId, b.firstName, b.lastName, some e, b.phone, b.address, hash p⟩])) ∧
    (∀ calls : List SignupCall, UniqueEmails users → UniqueEmails (signupAll users calls)) ∧
    ((signup hash newId false false users b).1.status = some 200 →
      ∀ (calls : List SignupCall) (hash2 : String → String) (newId2 : Nat) (insErr2 : Bool)
        (b2 : SignupBody), b2.email = some e →
        signup hash2 newId2 false insErr2
            (signupAll (signup hash newId false false users b).2 calls) b2 =
          (.responded ⟨400, msg "Email already registered"⟩,
            signupAll (signup hash newId false false users b).2 calls)) := by
  refine ⟨?_, ?_, fun calls h => uniqueEmails_signupAll calls users h, ?_⟩
  · intro hex
    exact signup_existing hash newId false users b
      (by rw [he]; exact (selectByEmail_ne_nil_iff users e).mpr hex)
  · intro hno p hp
    have hnil : selectByEmail users b.email = [] := by
      rw [he]
      by_contra hne
      exact hno ((selectByEmail_ne_nil_iff users e).mp hne)
    rw [signup_fresh hash newId users b p hnil hp, he]
  · intro hok calls hash2 newId2 insErr2 b2 he2
    have hin : ∃ u ∈ (signup hash newId false false users b).2, u.email = some e := by
      by_cases hex : ∃ u ∈ users, u.email = some e
      · have h400 := signup_existing hash newId false users b
          (by rw [he]; exact (selectByEmail_ne_nil_iff users e).mpr hex)
        rw [h400] at hok
        simp [Outcome.status] at hok
      · have hnil : selectByEmail users b.email = [] := by
          rw [he]
          by_contra hne
          exact hex ((selectByEmail_ne_nil_iff users e).mp hne)
        cases hp : b.password with
        | none =>
          simp [signup, hnil, hp, Outcome.status] at hok
        | some p =>
          rw [signup_fresh hash newId users b p hnil hp]
          exact ⟨_, List.mem_append_right _ (List.mem_singleton.mpr rfl), he⟩
    have hkept := email_kept_signupAll calls _ e hin
    exact signup_existing hash2 newId2 insErr2 _ b2
      (by rw [he2]; exact (selectByEmail_ne_nil_iff _ e).mpr hkept)

theorem signup_email_unique_witness :
    (SignupBody.mk (some "Jane") (some "Doe") (some "a@x.com") none none
      (some "secret1")).email = some "a@x.com" ∧
    signup (fun p => "hashed:" ++ p) 1 false false []
        ⟨some "Jane", some "Doe", some "a@x.com", none, none, some "secret1"⟩ =
      (.responded ⟨200, msg "User registered successfully"⟩,
        [] ++ [⟨1, some "Jane", some "Doe", some "a@x.com", none, none,
          "hashed:" ++ "secret1"⟩]) :=
  ⟨rfl, (signup_email_unique (fun p => "hashed:" ++ p) 1 []
    ⟨some "Jane", some "Doe", some "a@x.com", none, none, some "secret1"⟩ "a@x.com" rfl).2.1
    (by simp) "secret1" rfl⟩

/-- C6 (fails on the code): on a signup request whose email no row has and
whose body has no password, with the store answering without error, the
handler adds no row and writes no response at all, instead of adding one user
and answering 200: `bcrypt.hash` rejects inside the query callback, which the
`try` around the query does not cover. -/
theorem signup_without_password_unanswered (hash : String → String) (newId : Nat)
    (users : List User) (b : SignupBody) (e : String) (he : b.email = some e)
    (hno : ¬ ∃ u ∈ users, u.email = some e) (hp : b.password = none) :
    signup hash newId false false users b = (.unanswered, users) ∧
    (signup hash newId false false users b).1.status ≠ some 200 ∧
    (signup hash newId false false users b).2.length = users.length := by
  have hnil : selectByEmail users b.email = [] := by
    rw [he]
    by_contra hne
    exact hno ((selectByEmail_ne_nil_iff users e).mp hne)
  have h : signup hash newId false false users b = (.unanswered, users) := by
    simp [signup, hnil, hp]
  rw [h]
  exact ⟨rfl, by simp [Outcome.status], rfl⟩

theorem signup_without_password_unanswered_witness :
    (SignupBody.mk (some "Jane") (some "Doe") (some "a@x.com") none none none).email =
      some "a@x.com" ∧
    (¬ ∃ u ∈ ([] : List User), u.email = some "a@x.com") ∧
    (SignupBody.mk (some "Jane") (some "Doe") (some "a@x.com") none none none).password =
      none ∧
    signup (fun p => "hashed:" ++ p) 1 false false []
        ⟨some "Jane", some "Doe", some "a@x.com", none, none, none⟩ = (.unanswered, []) :=
  ⟨rfl, by simp, rfl,
    (signup_without_password_unanswered (fun p => "hashed:" ++ p) 1 []
      ⟨some "Jane", some "Doe", some "a@x.com", none, none, none⟩ "a@x.com" rfl (by simp)
      rfl).1⟩

/-! ## Login -/

theorem login_no_row (compare : String → String → Bool) (users : List User)
    (b : LoginBody) (h : selectByEmail users b.email = []) :
    login compare false users b = .responded ⟨401, msg "Invalid email or password"⟩ := by
  simp [login, h]

theorem login_row (compare : String → String → Bool) (users : List User)
    (e : Option String) (p : String) (u : User) (rest : List User)
    (h : selectByEmail users e = u :: rest) :
    login compare false users ⟨e, some p⟩ =
      if compare p u.password = true then
        .responded ⟨200, .obj [("message", .str "Login successful"), ("user", loginUser u)]⟩
      else .responded ⟨401, msg "Invalid email or password"⟩ := by
  by_cases hc : compare p u.password = true <;> simp [login, h, hc]

theorem email_of_selected (users : List User) (e : String) (u : User) (rest : List User)
    (h : selectByEmail users (some e) = u :: rest) : u ∈ users ∧ u.email = some e := by
  have hm : u ∈ selectByEmail users (some e) := by rw [h]; exact List.mem_cons_self _ _
  rw [selectByEmail_some, List.mem_filter] at hm
  exact ⟨hm.1, by simpa using hm.2⟩

/-- With at most one row per email, the SELECT returns exactly the row that has
the email. -/
theorem selectByEmail_unique (users : List User) (hu : UniqueEmails users) (e : String)
    (u : User) (hm : u ∈ users) (he : u.email = some e) :
    selectByEmail users (some e) = [u] := by
  have hin : u ∈ selectByEmail users (some e) := by
    rw [selectByEmail_some, List.mem_filter]
    exact ⟨hm, by simpa using he⟩
  have hlen := hu e
  rw [← selectByEmail_some] at hlen
  cases hs : selectByEmail users (some e) with
  | nil => rw [hs] at hin; cases hin
  | cons a t =>
    rw [hs] at hin hlen
    cases t with
    | nil =>
      rw [List.mem_singleton] at hin
      rw [hin]
    | cons a2 t2 => simp at hlen

/-- C7 (amended): with the store answering without error, `/api/login` on the
email `e` and the password `p` answers 200 exactly when the query returns a
row for `e` and `bcrypt.compare` accepts `p` against the hash stored in the
first row returned, the one the handler reads; on a table with at most one row
per email, exactly when a user with email `e` exists and `p` verifies against
that user's stored hash; it answers 401 otherwise.  On success the body is "Login
successful" with a `user` object made of `id`, `name` (first and last name
joined by a space) and `email` only: the stored hash is not in it. -/
theorem login_decision (compare : String → String → Bool) (users : List User)
    (e p : String) :
    ((login compare false users ⟨some e, some p⟩).status = some 200 ↔
      ∃ u rest, selectByEmail users (some e) = u :: rest ∧
        compare p u.password = true) ∧
    (UniqueEmails users →
      ((login compare false users ⟨some e, some p⟩).status = some 200 ↔
        ∃ u ∈ users, u.email = some e ∧ compare p u.password = true)) ∧
    ((login compare false users ⟨some e, some p⟩).status ≠ some 200 →
      login compare false users ⟨some e, some p⟩ =
        .responded ⟨401, msg "Invalid email or password"⟩) ∧
    (∀ u rest, selectByEmail users (some e) = u :: rest → compare p u.password = true →
      login compare false users ⟨some e, some p⟩ =
        .responded ⟨200, .obj [("message", .str "Login successful"),
          ("user", .obj [("id", .num u.id),
            ("name", .str (templ u.first_name ++ " " ++ templ u.last_name)),
            ("email", .str e)])]⟩) := by
  have key : (login compare false users ⟨some e, some p⟩).status = some 200 ↔
      ∃ u rest, selectByEmail users (some e) = u :: rest ∧
        compare p u.password = true := by
    cases hs : selectByEmail users (some e) with
    | nil =>
      rw [login_no_row compare users ⟨some e, some p⟩ hs]
      simp [Outcome.status]
    | cons u rest =>
      rw [login_row compare users (some e) p u rest hs]
      by_cases hc : compare p u.password = true
      · simp [hc, Outcome.status]
      · simp [hc, Outcome.status]
  refine ⟨key, ?_, ?_, ?_⟩
  · intro hu
    rw [key]
    constructor
    · rintro ⟨u, rest, hs, hc⟩
      exact ⟨u, (email_of_selected users e u rest hs).1,
        (email_of_selected users e u rest hs).2, hc⟩
    · rintro ⟨u, hm, he, hc⟩
      exact ⟨u, [], selectByEmail_unique users hu e u hm he, hc⟩
  · intro hne
    cases hs : selectByEmail users (some e) with
    | nil => exact login_no_row compare users ⟨some e, some p⟩ hs
    | cons u rest =>
      rw [login_row compare users (some e) p u rest hs] at hne ⊢
      by_cases hc : compare p u.password = true
      · simp [hc, Outcome.status] at hne
      · simp [hc]
  · intro u rest hs hc
    rw [login_row compare users (some e) p u rest hs]
    simp [hc, loginUser, (email_of_selected users e u rest hs).2]

theorem login_decision_witness :
    login (fun p h => h == "hashed:" ++ p) false
        [⟨1, some "Jane", some "Doe", some "a@x.com", none, none, "hashed:secret1"⟩]
        ⟨some "a@x.com", some "secret1"⟩ =
      .responded ⟨200, .obj [("message", .str "Login successful"),
        ("user", .obj [("id", .num 1), ("name", .str "Jane Doe"),
          ("email", .str "a@x.com")])]⟩ :=
  (login_decision (fun p h => h == "hashed:" ++ p)
    [⟨1, some "Jane", some "Doe", some "a@x.com", none, none, "hashed:secret1"⟩]
    "a@x.com" "secret1").2.2.2
    ⟨1, some "Jane", some "Doe", some "a@x.com", none, none, "hashed:secret1"⟩ []
    (by simp [selectByEmail, sqlEq]) (by decide)

/-- C7, as stated, fails: on a table with two rows for `a@x.com`, where the
password verifies against the hash of the second row only, a user with that
email exists whose stored hash the password verifies against, and yet the
handler, reading the first row returned, answers 401. -/
theorem login_second_row_rejected :
    (∃ u ∈ ([⟨1, some "Jane", some "Doe", some "a@x.com", none, none, "hashed:one"⟩,
        ⟨2, some "June", some "Doe", some "a@x.com", none, none, "hashed:two"⟩] : List User),
      u.email = some "a@x.com" ∧ (u.password == "hashed:" ++ "two") = true) ∧
    login (fun p h => h == "hashed:" ++ p) false
        [⟨1, some "Jane", some "Doe", some "a@x.com", none, none, "hashed:one"⟩,
         ⟨2, some "June", some "Doe", some "a@x.com", none, none, "hashed:two"⟩]
        ⟨some "a@x.com", some "two"⟩ =
      .responded ⟨401, msg "Invalid email or password"⟩ ∧
    (login (fun p h => h == "hashed:" ++ p) false
        [⟨1, some "Jane", some "Doe", some "a@x.com", none, none, "hashed:one"⟩,
         ⟨2, some "June", some "Doe", some "a@x.com", none, none, "hashed:two"⟩]
        ⟨some "a@x.com", some "two"⟩).status ≠ some 200 := by
  have hsel : selectByEmail
      [⟨1, some "Jane", some "Doe", some "a@x.com", none, none, "hashed:one"⟩,
       ⟨2, some "June", some "Doe", some "a@x.com", none, none, "hashed:two"⟩]
      (some "a@x.com") =
      ⟨1, some "Jane", some "Doe", some "a@x.com", none, none, "hashed:one"⟩ ::
        [⟨2, some "June", some "Doe", some "a@x.com", none, none, "hashed:two"⟩] := by
    simp [selectByEmail, sqlEq]
  have hl := login_row (fun p h => h == "hashed:" ++ p) _ (some "a@x.com") "two" _ _ hsel
  have hc : (("hashed:one" : String) == "hashed:" ++ "two") = false := by decide
  simp only [hc, Bool.false_eq_true, if_false] at hl
  refine ⟨⟨⟨2, some "June", some "Doe", some "a@x.com", none, none, "hashed:two"⟩,
    by simp, rfl, by decide⟩, hl, ?_⟩
  rw [hl]
  simp [Outcome.status]

/-! ## Change password -/

theorem updatePassword_no_match (users : List User) (hashed : String) (e : String)
    (h : selectByEmail users (some e) = []) : updatePassword users hashed (some e) = users := by
  unfold updatePassword
  have hall : ∀ u ∈ users, sqlEq (some e) u.email = false := by
    intro u hu
    by_contra hne
    have hm : u ∈ selectByEmail users (some e) :=
      List.mem_filter.mpr ⟨hu, by simpa using hne⟩
    rw [h] at hm
    cases hm
  calc users.map _ = users.map id :=
        List.map_congr_left (fun u hu => by simp [hall u hu])
    _ = users := List.map_id users

theorem updatePassword_getElem? (users : List User) (hashed : String) (e : String)
    (k : Nat) :
    (updatePassword users hashed (some e))[k]? =
      (users[k]?).map (fun u =>
        if u.email = some e then
          ⟨u.id, u.first_name, u.last_name, u.email, u.phone, u.address, hashed⟩
        else u) := by
  unfold updatePassword
  rw [List.getElem?_map]
  congr 1
  funext u
  rw [sqlEq_some]
  by_cases h : u.email = some e <;> simp [h]

/-- C9: with the store answering without error, on a request with non-empty
`id` and `password`: when no row has email `id`, `/api/change-password` answers
404 "User not found" and the table is unchanged; otherwise it answers success,
the table keeps its length and order, every row whose email is `id` has its
password replaced by the hash of the new password with all its other fields
kept, and every other row is unchanged.  A request whose `id` or `password` is
missing or empty answers 400 and leaves the table unchanged. -/
theorem changePassword_frame (hash : String → String) (users : List User)
    (i p : String) (hi : i ≠ "") (hp : p ≠ "") :
    ((¬ ∃ u ∈ users, u.email = some i) →
      changePassword hash false users ⟨some i, some p⟩ =
        (.responded ⟨404, flagMsg false "User not found"⟩, users)) ∧
    ((∃ u ∈ users, u.email = some i) →
      (changePassword hash false users ⟨some i, some p⟩).1 =
        .responded ⟨200, flagMsg true "Password changed successfully"⟩ ∧
      (changePassword hash false users ⟨some i, some p⟩).2.length = users.length ∧
      ∀ (k : Nat) (u : User), users[k]? = some u →
        (changePassword hash false users ⟨some i, some p⟩).2[k]? =
          some (if u.email = some i then
            ⟨u.id, u.first_name, u.last_name, u.email, u.phone, u.address, hash p⟩
          else u)) ∧
    (∀ (dbErr : Bool) (b : ChangePasswordBody),
      (b.id = none ∨ b.id = some "" ∨ b.password = none ∨ b.password = some "") →
      changePassword hash dbErr users b =
        (.responded ⟨400, flagMsg false "Missing id or password"⟩, users)) := by
  refine ⟨?_, ?_, ?_⟩
  · intro hno
    have hnil : selectByEmail users (some i) = [] := by
      by_contra hne
      exact hno ((selectByEmail_ne_nil_iff users i).mp hne)
    simp [changePassword, hi, hp, hnil, updatePassword_no_match users _ i hnil]
  · intro hex
    have hne : selectByEmail users (some i) ≠ [] := (selectByEmail_ne_nil_iff users i).mpr hex
    have hlen : (selectByEmail users (some i)).length ≠ 0 := by
      intro h0
      exact hne (List.length_eq_zero.mp h0)
    have hcp : changePassword hash false users ⟨some i, some p⟩ =
        (.responded ⟨200, flagMsg true "Password changed successfully"⟩,
          updatePassword users (hash p) (some i)) := by
      simp [changePassword, hi, hp, hlen]
    rw [hcp]
    refine ⟨rfl, by simp [updatePassword], fun k u hk => ?_⟩
    show (updatePassword users (hash p) (some i))[k]? = _
    rw [updatePassword_getElem?, hk]
    rfl
  · intro dbErr b hb
    obtain ⟨bi, bp⟩ := b
    cases bi with
    | none => simp [changePassword]
    | some bi =>
      cases bp with
      | none => simp [changePassword]
      | some bp =>
        have : bi = "" ∨ bp = "" := by
          rcases hb with h | h | h | h
          · cases h
          · left; simpa using h
          · cases h
          · right; simpa using h
        simp [changePassword, this]

theorem changePassword_frame_witness :
    ("a@x.com" : String) ≠ "" ∧ ("secret2" : String) ≠ "" ∧
    changePassword (fun p => "hashed:" ++ p) false
        [⟨1, some "Jane", some "Doe", some "b@x.com", none, none, "hashed:secret1"⟩]
        ⟨some "a@x.com", some "secret2"⟩ =
      (.responded ⟨404, flagMsg false "User not found"⟩,
        [⟨1, some "Jane", some "Doe", some "b@x.com", none, none, "hashed:secret1"⟩]) :=
  ⟨by decide, by decide,
    (changePassword_frame (fun p => "hashed:" ++ p)
      [⟨1, some "Jane", some "Doe", some "b@x.com", none, none, "hashed:secret1"⟩]
      "a@x.com" "secret2" (by decide) (by decide)).1 (by simp)⟩

/-! ## The two handlers of `POST /api/login` -/

theorem login_ne_next (compare : String → String → Bool) (selErr : Bool)
    (users : List User) (b : LoginBody) : login compare selErr users b ≠ .next := by
  unfold login
  split_ifs
  · simp
  · split
    · simp
    · split
      · simp
      · split_ifs <;> simp

theorem login_not_alt (compare : String → String → Bool) (selErr : Bool)
    (users : List User) (b : LoginBody) : ¬ isAltContract (login compare selErr users b) := by
  unfold login
  split_ifs
  · simp [isAltContract, msg]
  · split
    · simp [isAltContract, msg]
    · split
      · simp [isAltContract]
      · split_ifs <;> simp [isAltContract, msg]

/-- C8 (fails on the code): both handlers are registered for `POST /api/login`,
and the first one answers every request without handing it on, so the client
always gets the first handler's answer and never a response of the alternative
contract (404 "User not found", 401 "Invalid password", 200 with `userId`),
although the second handler, had it run, would give one for an unknown
email. -/
theorem login_alt_contract_never_served (compare : String → String → Bool) (selErr : Bool)
    (users : List User) (b : LoginBody) :
    servePostLogin compare selErr users b = some (login compare selErr users b) ∧
    (∀ o, servePostLogin compare selErr users b = some o → ¬ isAltContract o) ∧
    servePostLogin compare false [] ⟨some "nobody@x.com", some "pw"⟩ =
      some (.responded ⟨401, msg "Invalid email or password"⟩) ∧
    loginAlt compare false [] ⟨some "nobody@x.com", some "pw"⟩ =
      .responded ⟨404, msg "User not found"⟩ := by
  have h1 : servePostLogin compare selErr users b = some (login compare selErr users b) := by
    have hn := login_ne_next compare selErr users b
    unfold servePostLogin loginLayers dispatch
    rw [if_pos ⟨rfl, rfl⟩]
    show (match login compare selErr users b with
      | .next => _
      | o => some o) = _
    cases hl : login compare selErr users b with
    | next => exact absurd hl hn
    | responded r => rfl
    | threw => rfl
    | unanswered => rfl
  refine ⟨h1, ?_, ?_, ?_⟩
  · intro o ho
    rw [h1] at ho
    cases ho
    exact login_not_alt compare selErr users b
  · unfold servePostLogin loginLayers dispatch
    simp [login, selectByEmail]
  · simp [loginAlt, selectByEmail]

/-! ## Review validation -/

/-- The guard of `/api/reviews` throws exactly when `name` and `rating` are
truthy and `comment` is not a string; nothing is inserted then. -/
theorem postReviews_threw_iff (newId : Nat) (dbErr : Bool) (reviews : List Review)
    (b : ReviewBody) :
    (postReviews newId dbErr reviews b).1 = .threw ↔
      b.name.truthy = true ∧ b.rating.truthy = true ∧ ∀ c, b.comment ≠ .str c := by
  unfold postReviews
  by_cases hn : b.name.truthy = true
  · by_cases hr : b.rating.truthy = true
    · cases hc : b.comment with
      | str c =>
        simp only [hn, hr]
        by_cases ht : (JsVal.str (jsTrim c)).truthy = true
        · by_cases hd : dbErr = true <;> simp [ht, hd]
        · simp [ht]
      | undefined => simp [hn, hr]
      | null => simp [hn, hr]
      | bool x => simp [hn, hr]
      | num x => simp [hn, hr]
      | arr x => simp [hn, hr]
      | obj x => simp [hn, hr]
    · simp [hn, hr]
  · simp [hn]

/-- C10 (fails on the code): on a body with a name and a rating and no
`comment` field at all, the guard evaluates `comment.trim()` on `undefined`:
the handler throws instead of answering 400 "All fields are required." (no
row is inserted). -/
theorem postReviews_missing_comment_throws (newId : Nat) (dbErr : Bool)
    (reviews : List Review) :
    postReviews newId dbErr reviews ⟨.str "Asha", .num 5, .undefined⟩ = (.threw, reviews) ∧
    (postReviews newId dbErr reviews ⟨.str "Asha", .num 5, .undefined⟩).1 ≠
      .responded ⟨400, .obj [("error", .str "All fields are required.")]⟩ := by
  have h : postReviews newId dbErr reviews ⟨.str "Asha", .num 5, .undefined⟩ =
      (.threw, reviews) := by
    simp [postReviews, JsVal.truthy]
  rw [h]
  exact ⟨rfl, by simp⟩

end Backend
